import Mathlib

/-!
Verification of the gift-acquisition core of `script.py` (class `GiftBuyer`,
function `stars_value`, dataclass `RunConfig`).

The Python source is shallowly embedded: money amounts are exact rationals
(the "normalized decimal-equivalent quantity" `amount + nanos/1e9` computed
by `stars_value`); the network is an oracle (`Feed`) supplying, in call
order, the responses of the four remote operations the loop performs, plus
the time at which the stop event is set; the async loop `GiftBuyer.run`
becomes a fuelled interpreter producing a terminal outcome, a termination
time (in seconds, advanced only by the `asyncio.sleep` calls — network
calls are instantaneous in the model), and a trace of observable actions
(remote calls and log lines).
-/

namespace StarsBot

/-- A value passed to `stars_value`: either an object carrying an `amount`
attribute (with an optional `nanos` attribute), e.g. a `StarsAmount`, or a
plain value (`int` or `None`).  `Option.none` on a field models a missing /
`None` attribute. -/
inductive StarsVal where
  | obj (amount : Option Int) (nanos : Option Int)
  | int (v : Option Int)
  deriving DecidableEq

/-- `stars_value` (script.py lines 28–31): if the value has an `amount`
attribute, return `(v.amount or 0) + (getattr(v, "nanos", 0) or 0) / 1e9`;
otherwise return `int(v or 0)`.  (`x or 0` maps both `None` and `0` to `0`,
which coincides with `Option.getD 0`.) -/
def stars_value : StarsVal → ℚ
  | .obj amount nanos => (amount.getD 0 : ℚ) + (nanos.getD 0 : ℚ) / 1000000000
  | .int v => (v.getD 0 : ℚ)

/-- A catalog gift as the loop reads it (script.py lines 97–101), with the
`getattr` defaults: every field is read defensively, absent attributes
modelled by `Option.none` (for `limited` / `sold_out` the `getattr` default
`False` is folded into the `Bool`). -/
structure StarGift where
  id : Int
  limited : Bool
  sold_out : Bool
  availability_remains : Option Int
  stars : Option StarsVal
  deriving DecidableEq

/-- `price = stars_value(getattr(g, "stars", 0))` (line 101): an absent
`stars` attribute defaults to `0`. -/
def giftPrice (g : StarGift) : ℚ :=
  stars_value (g.stars.getD (.int (some 0)))

/-- The eligibility test of line 102:
`limited and not sold_out and (remains is None or remains > 0) and price <= max_price_stars`. -/
def eligibleB (maxPrice : Int) (g : StarGift) : Bool :=
  g.limited && !g.sold_out &&
    (match g.availability_remains with
      | none => true
      | some r => decide (0 < r)) &&
    decide (giftPrice g ≤ (maxPrice : ℚ))

/-- Comparison by price, the sort key of line 105 (`key=lambda x: x[0]`). -/
def priceLe (a b : StarGift) : Prop := giftPrice a ≤ giftPrice b

instance : DecidableRel priceLe := fun a b =>
  inferInstanceAs (Decidable (giftPrice a ≤ giftPrice b))

instance : IsTotal StarGift priceLe := ⟨fun a b => le_total (giftPrice a) (giftPrice b)⟩

instance : IsTrans StarGift priceLe := ⟨fun _ _ _ => le_trans⟩

/-- The Offer Evaluator (script.py lines 96–105): keep the offers passing
the line-102 test, in catalog order, then sort ascending by price.
Python's `list.sort` is a stable sort, and a stable sort by a key is
extensionally unique, so it is embedded as insertion sort, the canonical
stable sort. -/
def evaluateOffers (maxPrice : Int) (gifts : List StarGift) : List StarGift :=
  List.insertionSort priceLe (gifts.filter (eligibleB maxPrice))

/-- The insufficiency test of line 115: `balance < price`; the candidate is
skipped exactly when this holds, so `balance == price` is sufficient. -/
def insufficientBalance (balance price : ℚ) : Bool :=
  decide (balance < price)

/-- The `run` loop's fields mirror the `RunConfig` dataclass
(script.py lines 34–39); `session` and `recipient` are carried for
faithfulness but only `max_price_stars` and `poll_interval` affect the
loop's behaviour. -/
structure RunConfig where
  session : String
  recipient : String
  max_price_stars : Int
  poll_interval : ℕ
  deriving DecidableEq

/-- Response to `GetStarGiftsRequest(hash=...)` (lines 80–94): an exception,
a `StarGiftsNotModified`, or a result object whose `hash` and `gifts`
attributes are read with `getattr` defaults (an absent or empty `gifts`
attribute both behave as the empty list). -/
inductive CatalogResp where
  | fetchErr
  | notModified
  | ok (hash : Option Int) (gifts : List StarGift)
  deriving DecidableEq

/-- Response to `GetStarsStatusRequest` (lines 62–64 and 112–113): the
status object whose `balance` attribute is read with `getattr` default `0`
(`Option.none` = attribute absent), an `AuthKeyUnregisteredError`, or any
other exception. -/
inductive BalanceResp where
  | ok (balance : Option StarsVal)
  | authErr
  | err
  deriving DecidableEq

/-- Response to `GetPaymentFormRequest` (lines 125–130): an exception, a
form of an accepted type (`PaymentFormStarGift` / `PaymentFormStars`), or a
form of an unexpected type. -/
inductive FormResp where
  | err
  | valid
  | invalid
  deriving DecidableEq

/-- Response to `SendStarsFormRequest` (lines 132–139). -/
inductive SubmitResp where
  | ok
  | err
  deriving DecidableEq

/-- The environment of one run: the `n`-th call of each remote operation
receives the `n`-th response of the corresponding stream, and the stop
event (`GiftBuyer._stop_event`) becomes set at time `stopAt` (never, when
`none`).  Time is measured in seconds and advances only during the
`asyncio.sleep(poll_interval)` calls. -/
structure Feed where
  catalog : ℕ → CatalogResp
  balance : ℕ → BalanceResp
  form : ℕ → FormResp
  submit : ℕ → SubmitResp
  stopAt : Option ℕ

/-- `GiftBuyer._stop_event.is_set()` at time `t`. -/
def stopSet (feed : Feed) (t : ℕ) : Bool :=
  match feed.stopAt with
  | none => false
  | some s => decide (s ≤ t)

/-- How many responses of each stream have been consumed so far. -/
structure Counters where
  cat : ℕ
  bal : ℕ
  form : ℕ
  sub : ℕ
  deriving DecidableEq

/-- Observable actions of a run: remote calls and log lines, in program
order.  Each `log…` constructor is one `self.log(...)` call of the
source. -/
inductive Action where
  | logBalance (b : ℚ)
  | logAuthRequired
  | reopenLogin
  | logAuthDone
  | logRecipient
  | poll (hash : Int)
  | logCatalogError
  | sleep (secs : ℕ)
  | fetchBalance (b : ℚ)
  | balanceRaised
  | logSkip (balance price : ℚ)
  | formReq (giftId : Int) (price : ℚ)
  | logFormError
  | logUnexpectedForm
  | submitForm (giftId : Int)
  | logSuccess (giftId : Int) (price : ℚ)
  | logPayError
  deriving DecidableEq

/-- How the candidate loop of lines 107–141 ends the whole run, when it
does: `success` is the `return` of line 137, `crash` is an uncaught
exception (the balance re-fetch of line 112 has no handler). -/
inductive BuyEnd where
  | success (giftId : Int) (price : ℚ)
  | crash
  deriving DecidableEq

/-- The candidate loop (script.py lines 107–141): for each candidate,
check the stop event (a `break` falls through to the post-loop sleep),
re-fetch the balance (uncaught exception ⇒ the run dies), skip on
insufficient balance, request the payment form (exception ⇒ log, next
candidate; unexpected type ⇒ log, next candidate), submit it (success ⇒
log and return; exception ⇒ log, next candidate). -/
def buyLoop (feed : Feed) (t : ℕ) : Counters → List StarGift →
    Counters × List Action × Option BuyEnd
  | ctr, [] => (ctr, [], none)
  | ctr, g :: rest =>
    if stopSet feed t then (ctr, [], none)
    else
      match feed.balance ctr.bal with
      | .authErr => (⟨ctr.cat, ctr.bal + 1, ctr.form, ctr.sub⟩, [.balanceRaised], some .crash)
      | .err => (⟨ctr.cat, ctr.bal + 1, ctr.form, ctr.sub⟩, [.balanceRaised], some .crash)
      | .ok v =>
        let bal := stars_value (v.getD (.int (some 0)))
        let p := giftPrice g
        let ctr1 : Counters := ⟨ctr.cat, ctr.bal + 1, ctr.form, ctr.sub⟩
        if insufficientBalance bal p then
          let r := buyLoop feed t ctr1 rest
          (r.1, .fetchBalance bal :: .logSkip bal p :: r.2.1, r.2.2)
        else
          match feed.form ctr1.form with
          | .err =>
            let ctr2 : Counters := ⟨ctr1.cat, ctr1.bal, ctr1.form + 1, ctr1.sub⟩
            let r := buyLoop feed t ctr2 rest
            (r.1, .fetchBalance bal :: .formReq g.id p :: .logFormError :: r.2.1, r.2.2)
          | .invalid =>
            let ctr2 : Counters := ⟨ctr1.cat, ctr1.bal, ctr1.form + 1, ctr1.sub⟩
            let r := buyLoop feed t ctr2 rest
            (r.1, .fetchBalance bal :: .formReq g.id p :: .logUnexpectedForm :: r.2.1, r.2.2)
          | .valid =>
            let ctr2 : Counters := ⟨ctr1.cat, ctr1.bal, ctr1.form + 1, ctr1.sub⟩
            match feed.submit ctr2.sub with
            | .ok =>
              (⟨ctr2.cat, ctr2.bal, ctr2.form, ctr2.sub + 1⟩,
               [.fetchBalance bal, .formReq g.id p, .submitForm g.id, .logSuccess g.id p],
               some (.success g.id p))
            | .err =>
              let ctr3 : Counters := ⟨ctr2.cat, ctr2.bal, ctr2.form, ctr2.sub + 1⟩
              let r := buyLoop feed t ctr3 rest
              (r.1, .fetchBalance bal :: .formReq g.id p :: .submitForm g.id :: .logPayError :: r.2.1,
               r.2.2)

/-- Result of one pass of the `while` body (lines 78–143): the loop
condition failed (run returns ⇒ cancelled), the body ran the run to an
end, or the body finished with a sleep and the loop continues with updated
token, counters and clock. -/
inductive IterStep where
  | stopped
  | finished (out : BuyEnd) (tr : List Action)
  | next (token : Int) (ctr : Counters) (t : ℕ) (tr : List Action)
  deriving DecidableEq

/-- One pass of the `while not self._stop_event.is_set()` loop
(lines 78–143).  Note the order of lines 86–94: the `StarGiftsNotModified`
check precedes the token update, but the token update
`last_hash = getattr(gifts_resp, "hash", 0) or 0` (line 90) precedes the
empty-list check (line 92), so an empty-list response does update the
token. -/
def iteration (cfg : RunConfig) (feed : Feed) (token : Int) (ctr : Counters) (t : ℕ) :
    IterStep :=
  if stopSet feed t then .stopped
  else
    match feed.catalog ctr.cat with
    | .fetchErr =>
      .next token ⟨ctr.cat + 1, ctr.bal, ctr.form, ctr.sub⟩ (t + cfg.poll_interval)
        [.poll token, .logCatalogError, .sleep cfg.poll_interval]
    | .notModified =>
      .next token ⟨ctr.cat + 1, ctr.bal, ctr.form, ctr.sub⟩ (t + cfg.poll_interval)
        [.poll token, .sleep cfg.poll_interval]
    | .ok h gifts =>
      let token' := h.getD 0
      let ctr' : Counters := ⟨ctr.cat + 1, ctr.bal, ctr.form, ctr.sub⟩
      if gifts.isEmpty then
        .next token' ctr' (t + cfg.poll_interval) [.poll token, .sleep cfg.poll_interval]
      else
        let r := buyLoop feed t ctr' (evaluateOffers cfg.max_price_stars gifts)
        match r.2.2 with
        | some out => .finished out (.poll token :: r.2.1)
        | none =>
          .next token' r.1 (t + cfg.poll_interval)
            (.poll token :: (r.2.1 ++ [.sleep cfg.poll_interval]))

/-- Terminal outcome of a run. -/
inductive Outcome where
  | success (giftId : Int) (price : ℚ)
  | crash
  | cancelled
  | authRestart
  | fuelOut
  deriving DecidableEq

def outcomeOfEnd : BuyEnd → Outcome
  | .success i p => .success i p
  | .crash => .crash

/-- The `while` loop, fuelled by a bound on the number of iterations. -/
def runLoop (cfg : RunConfig) (feed : Feed) :
    ℕ → Int → Counters → ℕ → Outcome × ℕ × List Action
  | 0, _, _, t => (.fuelOut, t, [])
  | fuel + 1, token, ctr, t =>
    match iteration cfg feed token ctr t with
    | .stopped => (.cancelled, t, [])
    | .finished out tr => (outcomeOfEnd out, t, tr)
    | .next token' ctr' t' tr =>
      let r := runLoop cfg feed fuel token' ctr' t'
      (r.1, r.2.1, tr ++ r.2.2)

/-- `GiftBuyer.run` after the client is opened (lines 61–143): the initial
`GetStarsStatusRequest` consumes `feed.balance 0`; on
`AuthKeyUnregisteredError` the code logs, reopens the client — the source
comment reads "Reopen to force login flow in the same session", i.e. an
in-process interactive login — logs again and returns; any other exception
there is uncaught; otherwise the balance is logged, the recipient resolved
and logged, and the `while` loop starts with `last_hash = 0` at time 0. -/
def runGiftBuyer (cfg : RunConfig) (feed : Feed) (fuel : ℕ) :
    Outcome × ℕ × List Action :=
  match feed.balance 0 with
  | .authErr => (.authRestart, 0, [.logAuthRequired, .reopenLogin, .logAuthDone])
  | .err => (.crash, 0, [.balanceRaised])
  | .ok v =>
    let r := runLoop cfg feed fuel 0 ⟨0, 1, 0, 0⟩ 0
    (r.1, r.2.1, .logBalance (stars_value (v.getD (.int (some 0)))) :: .logRecipient :: r.2.2)

/-- No `logSuccess` action occurs in the list. -/
def noSuccess (l : List Action) : Bool :=
  l.all fun a =>
    match a with
    | .logSuccess _ _ => false
    | _ => true

/-- Every `formReq` in the list is immediately preceded by a `fetchBalance`
whose value passes the line-115 test against the request's price: a payment
form is only ever requested right after a fresh balance read that gates
it. -/
inductive BalGatedP : List Action → Prop where
  | nil : BalGatedP []
  | pair (b : ℚ) (i : Int) (p : ℚ) (rest : List Action) (hbp : p ≤ b)
      (h : BalGatedP rest) : BalGatedP (.fetchBalance b :: .formReq i p :: rest)
  | skip (a : Action) (rest : List Action) (hnf : ∀ i p, a ≠ .formReq i p)
      (h : BalGatedP rest) : BalGatedP (a :: rest)

/-! Concrete gifts, configurations and feeds used by the closed
counterexample and witness theorems below. -/

/-- A limited, available gift priced 100 stars. -/
def gLow : StarGift := ⟨11, true, false, none, some (.int (some 100))⟩

/-- A limited gift priced 300 stars with 5 remaining. -/
def gHigh : StarGift := ⟨22, true, false, some 5, some (.int (some 300))⟩

/-- A non-limited gift priced 50 stars. -/
def gNotLim : StarGift := ⟨33, false, false, none, some (.int (some 50))⟩

/-- A limited, available gift whose `stars` attribute is absent. -/
def gFree : StarGift := ⟨44, true, false, some 2, none⟩

/-- The default configuration of the GUI (ceiling 500, interval 15 s). -/
def cfgStd : RunConfig := ⟨"tg_gifts.session", "me", 500, 15⟩

/-- A configuration with a 10-second poll interval. -/
def cfgTen : RunConfig := ⟨"tg_gifts.session", "me", 500, 10⟩

/-- Catalog offering both gifts, balance 250, everything else succeeding. -/
def feedSucc : Feed :=
  ⟨fun _ => .ok (some 9) [gHigh, gLow, gNotLim],
   fun _ => .ok (some (.int (some 250))),
   fun _ => .valid, fun _ => .ok, none⟩

/-- First poll returns an empty gift list with hash 7, later polls return
not-modified. -/
def feedEmpty : Feed :=
  ⟨fun n => if n = 0 then .ok (some 7) [] else .notModified,
   fun _ => .ok (some (.int (some 5))),
   fun _ => .valid, fun _ => .ok, none⟩

/-- Not-modified forever; the stop event is set at t = 1. -/
def feedCancel : Feed :=
  ⟨fun _ => .notModified, fun _ => .ok (some (.int (some 0))),
   fun _ => .valid, fun _ => .ok, some 1⟩

/-- One eligible gift; the balance re-fetch before the purchase raises. -/
def feedBalCrash : Feed :=
  ⟨fun _ => .ok (some 9) [gLow],
   fun n => if n = 0 then .ok (some (.int (some 250))) else .err,
   fun _ => .valid, fun _ => .ok, none⟩

/-- The session is rejected as unauthorized on the initial status call. -/
def feedAuth : Feed :=
  ⟨fun _ => .notModified, fun _ => .authErr, fun _ => .valid, fun _ => .ok, none⟩

/-- Every catalog fetch raises. -/
def feedCatErr : Feed :=
  ⟨fun _ => .fetchErr, fun _ => .ok (some (.int (some 5))),
   fun _ => .valid, fun _ => .ok, none⟩

/-- One eligible gift, sufficient balance, but the payment-form request
raises. -/
def feedFormErr : Feed :=
  ⟨fun _ => .ok (some 9) [gLow],
   fun _ => .ok (some (.int (some 250))),
   fun _ => .err, fun _ => .ok, none⟩

/-- The trace of the authentication-required path (lines 66–72). -/
def authTrace : List Action := [.logAuthRequired, .reopenLogin, .logAuthDone]

/-- The trace/result shape maintained by the candidate loop and the run: a
successful end is logged as the very last action, and a trace whose run did
not end in a success contains no success log at all. -/
def SuccessShape (tr : List Action) (r : Option BuyEnd) : Prop :=
  (∀ i p, r = some (.success i p) →
    ∃ tr₀, tr = tr₀ ++ [.logSuccess i p] ∧ noSuccess tr₀ = true) ∧
  ((∀ i p, r ≠ some (.success i p)) → noSuccess tr = true)

/-! ### Stability of the evaluator's sort -/

theorem filter_price_orderedInsert (q : ℚ) (g : StarGift) (l : List StarGift) :
    (List.orderedInsert priceLe g l).filter (fun x => giftPrice x == q) =
      if giftPrice g = q
      then g :: l.filter (fun x => giftPrice x == q)
      else l.filter (fun x => giftPrice x == q) := by
  induction l with
  | nil =>
    by_cases hq : giftPrice g = q <;> simp [hq]
  | cons h t ih =>
    by_cases hle : priceLe g h
    · by_cases hq : giftPrice g = q <;>
        simp [List.orderedInsert, hle, List.filter_cons, hq]
    · have hlt : giftPrice h < giftPrice g := not_le.mp hle
      by_cases hq : giftPrice g = q
      · have hh : ¬ giftPrice h = q := (hlt.trans_eq hq).ne
        simp [List.orderedInsert, hle, List.filter_cons, ih, hq, hh]
      · simp only [List.orderedInsert, if_neg hle, List.filter_cons, ih, if_neg hq]

theorem filter_price_insertionSort (q : ℚ) (l : List StarGift) :
    (List.insertionSort priceLe l).filter (fun x => giftPrice x == q) =
      l.filter (fun x => giftPrice x == q) := by
  induction l with
  | nil => rfl
  | cons a t ih =>
    rw [List.insertionSort, filter_price_orderedInsert]
    by_cases hq : giftPrice a = q <;> simp [List.filter_cons, hq, ih]

/-- C1: the Offer Evaluator returns exactly the offers passing the
eligibility predicate `limited ∧ ¬sold_out ∧ (remaining absent ∨ > 0) ∧
price ≤ ceiling`, in non-decreasing price order, and within each price
class the offers keep their original catalog order (stable sort). -/
theorem offer_evaluator_correct (m : Int) (gifts : List StarGift) :
    List.Perm (evaluateOffers m gifts) (gifts.filter (eligibleB m)) ∧
    List.Pairwise priceLe (evaluateOffers m gifts) ∧
    (∀ g, g ∈ evaluateOffers m gifts ↔ g ∈ gifts ∧ eligibleB m g = true) ∧
    (∀ g, eligibleB m g = true ↔
      g.limited = true ∧ g.sold_out = false ∧
      (∀ r, g.availability_remains = some r → 0 < r) ∧ giftPrice g ≤ (m : ℚ)) ∧
    (∀ q : ℚ, (evaluateOffers m gifts).filter (fun g => giftPrice g == q) =
      (gifts.filter (eligibleB m)).filter (fun g => giftPrice g == q)) := by
  refine ⟨List.perm_insertionSort _ _, List.sorted_insertionSort _ _, ?_, ?_, ?_⟩
  · intro g
    unfold evaluateOffers
    rw [(List.perm_insertionSort priceLe _).mem_iff, List.mem_filter]
  · intro g
    cases hr : g.availability_remains <;>
      simp [eligibleB, hr] <;> tauto
  · intro q
    exact filter_price_insertionSort q _

/-- C7: price/balance comparisons on the normalized decimal-equivalent
quantity use `≤` for eligibility (an offer priced exactly at the ceiling is
eligible, one priced one star above is not) and `<` for insufficiency (a
balance equal to the price is sufficient, one of price − 1 is not). -/
theorem comparison_boundaries (C : Int) (g h : StarGift) (b p : ℚ)
    (hlim : g.limited = true) (hso : g.sold_out = false)
    (hrem : g.availability_remains = none) (hp : giftPrice g = (C : ℚ))
    (hp1 : giftPrice h = (C : ℚ) + 1) :
    eligibleB C g = true ∧ eligibleB C h = false ∧
    insufficientBalance b b = false ∧ insufficientBalance (p - 1) p = true ∧
    (insufficientBalance b p = false ↔ p ≤ b) := by
  have hno : ¬ ((C : ℚ) + 1 ≤ (C : ℚ)) := by linarith
  refine ⟨?_, ?_, ?_, ?_, ?_⟩
  · simp [eligibleB, hlim, hso, hrem, hp]
  · simp [eligibleB, hp1, hno]
  · simp [insufficientBalance]
  · simp [insufficientBalance]
  · simp [insufficientBalance, not_lt]

/-- C7 witness: concrete boundary instances at ceiling 100: `gLow`
(price 100) is eligible; a price-101 gift is not; balance 7 suffices for
price 7; balance 2 does not suffice for price 3. -/
theorem comparison_boundaries_witness :
    eligibleB 100 gLow = true ∧
    eligibleB 100 ⟨12, true, false, none, some (.int (some 101))⟩ = false ∧
    insufficientBalance 7 7 = false ∧
    insufficientBalance (3 - 1) 3 = true ∧
    (insufficientBalance 7 3 = false ↔ (3 : ℚ) ≤ 7) :=
  comparison_boundaries 100 gLow ⟨12, true, false, none, some (.int (some 101))⟩ 7 3
    (by decide) (by decide) (by decide)
    (by norm_num [gLow, giftPrice, stars_value])
    (by norm_num [giftPrice, stars_value])

/-- C10: a limited, non-sold-out, available gift whose `stars` attribute is
absent normalizes to price 0, is eligible under every non-negative ceiling,
and (catalog prices being non-negative star amounts) sorts ahead of or tied
with every other candidate, so the first candidate attempted has price 0. -/
theorem priceless_gift_sorts_first (m : Int) (gifts : List StarGift) (g : StarGift)
    (hmem : g ∈ gifts) (hstars : g.stars = none) (hlim : g.limited = true)
    (hso : g.sold_out = false)
    (hrem : ∀ r, g.availability_remains = some r → 0 < r)
    (hm : 0 ≤ m) (hpos : ∀ o ∈ gifts, 0 ≤ giftPrice o) :
    giftPrice g = 0 ∧ eligibleB m g = true ∧ g ∈ evaluateOffers m gifts ∧
    (∀ o ∈ evaluateOffers m gifts, giftPrice g ≤ giftPrice o) ∧
    ∃ h t, evaluateOffers m gifts = h :: t ∧ giftPrice h = 0 := by
  have hp0 : giftPrice g = 0 := by simp [giftPrice, hstars, stars_value]
  have hmq : (0 : ℚ) ≤ (m : ℚ) := by exact_mod_cast hm
  have helig : eligibleB m g = true := by
    cases hr : g.availability_remains with
    | none => simp [eligibleB, hlim, hso, hr, hp0, hmq]
    | some r => simp [eligibleB, hlim, hso, hr, hp0, hmq, hrem r hr]
  have hmem' : g ∈ evaluateOffers m gifts := by
    unfold evaluateOffers
    rw [(List.perm_insertionSort priceLe _).mem_iff, List.mem_filter]
    exact ⟨hmem, helig⟩
  have hsub : ∀ o ∈ evaluateOffers m gifts, o ∈ gifts := by
    intro o ho
    unfold evaluateOffers at ho
    rw [(List.perm_insertionSort priceLe _).mem_iff, List.mem_filter] at ho
    exact ho.1
  have hmin : ∀ o ∈ evaluateOffers m gifts, giftPrice g ≤ giftPrice o := by
    intro o ho
    rw [hp0]
    exact hpos o (hsub o ho)
  refine ⟨hp0, helig, hmem', hmin, ?_⟩
  have hsorted : List.Pairwise priceLe (evaluateOffers m gifts) :=
    List.sorted_insertionSort priceLe _
  cases heval : evaluateOffers m gifts with
  | nil => rw [heval] at hmem'; cases hmem'
  | cons h t =>
    refine ⟨h, t, rfl, le_antisymm ?_ ?_⟩
    · rw [heval] at hmem' hsorted
      rcases List.mem_cons.mp hmem' with hg | hg
      · rw [← hg, hp0]
      · have h2 : giftPrice h ≤ giftPrice g := (List.pairwise_cons.mp hsorted).1 g hg
        rw [hp0] at h2
        exact h2
    · have : h ∈ evaluateOffers m gifts := by rw [heval]; exact List.mem_cons_self h t
      exact hpos h (hsub h this)

/-- C9: on a "not modified" catalog response the loop leaves the
continuation token at its prior value (the `.next` state carries `token`
unchanged; line 86 precedes the line-90 update), performs no candidate
evaluation step (the trace holds only the poll and one full poll-interval
sleep), and re-polls. -/
theorem not_modified_keeps_token (cfg : RunConfig) (feed : Feed) (token : Int)
    (ctr : Counters) (t : ℕ) (hstop : stopSet feed t = false)
    (hresp : feed.catalog ctr.cat = .notModified) :
    iteration cfg feed token ctr t =
      .next token ⟨ctr.cat + 1, ctr.bal, ctr.form, ctr.sub⟩ (t + cfg.poll_interval)
        [.poll token, .sleep cfg.poll_interval] := by
  simp [iteration, hstop, hresp]

/-- C9 witness: the first not-modified response of `feedCancel` leaves the
token at 0 and just sleeps one interval. -/
theorem not_modified_keeps_token_witness :
    iteration cfgTen feedCancel 0 ⟨0, 1, 0, 0⟩ 0 =
      .next 0 ⟨0 + 1, 1, 0, 0⟩ (0 + cfgTen.poll_interval)
        [.poll 0, .sleep cfgTen.poll_interval] :=
  not_modified_keeps_token cfgTen feedCancel 0 ⟨0, 1, 0, 0⟩ 0 (by decide) (by decide)

/-- C5 counterexample: the first poll (token 0) returns hash 7 with an
empty gift list.  The claim says an empty-list poll leaves the token at its
prior value (0), but the second poll is issued with token 7: line 90
updates `last_hash` before the empty-list check of line 92. -/
theorem empty_poll_advances_token :
    (runGiftBuyer cfgStd feedEmpty 2).2.2 =
      [.logBalance 5, .logRecipient, .poll 0, .sleep 15, .poll 7, .sleep 15] ∧
    Action.poll 0 ∉ List.drop 3 (runGiftBuyer cfgStd feedEmpty 2).2.2 := by
  decide

/-- C5 amended: on an empty offer list the loop waits one poll interval and
re-polls without any candidate evaluation, but the continuation token is
updated to the hash of the (non-not-modified) response — an empty-list poll
does not leave the token at its prior value. -/
theorem empty_list_step (cfg : RunConfig) (feed : Feed) (token : Int)
    (ctr : Counters) (t : ℕ) (h : Option Int) (hstop : stopSet feed t = false)
    (hresp : feed.catalog ctr.cat = .ok h []) :
    iteration cfg feed token ctr t =
      .next (h.getD 0) ⟨ctr.cat + 1, ctr.bal, ctr.form, ctr.sub⟩ (t + cfg.poll_interval)
        [.poll token, .sleep cfg.poll_interval] := by
  simp [iteration, hstop, hresp]

/-- C5 amended witness: the empty hash-7 response moves the token from 0
to 7 while only polling and sleeping. -/
theorem empty_list_step_witness :
    iteration cfgStd feedEmpty 0 ⟨0, 1, 0, 0⟩ 0 =
      .next ((some 7).getD 0) ⟨0 + 1, 1, 0, 0⟩ (0 + cfgStd.poll_interval)
        [.poll 0, .sleep cfgStd.poll_interval] :=
  empty_list_step cfgStd feedEmpty 0 ⟨0, 1, 0, 0⟩ 0 (some 7) (by decide) (by decide)

/-- C4 counterexample: the balance re-fetch before a purchase attempt
(line 112) has no exception handler.  When it raises, the run dies
immediately: the outcome is a crash, no log line describes the failure, and
no retry or poll-interval wait follows — refuting "a balance-read failure
during VerifyingBalance is logged and the run continues". -/
theorem balance_error_kills_run :
    runGiftBuyer cfgStd feedBalCrash 2 =
      (.crash, 0, [.logBalance 250, .logRecipient, .poll 0, .balanceRaised]) ∧
    (∀ a ∈ (runGiftBuyer cfgStd feedBalCrash 2).2.2,
      a ≠ .logCatalogError ∧ a ≠ .logFormError ∧ a ≠ .logPayError) ∧
    (∀ s, Action.sleep s ∉ (runGiftBuyer cfgStd feedBalCrash 2).2.2 ∨ 16 ≤ s) := by
  refine ⟨by decide, by decide, ?_⟩
  intro s
  by_cases hs : 16 ≤ s
  · exact Or.inr hs
  · left
    intro hmem
    have : Action.sleep s ∈ ([.logBalance 250, .logRecipient, .poll 0, .balanceRaised] :
        List Action) := by
      have he : (runGiftBuyer cfgStd feedBalCrash 2).2.2 =
          [.logBalance 250, .logRecipient, .poll 0, .balanceRaised] := by decide
      rw [he] at hmem
      exact hmem
    simp at this

/-- C4 amended: catalog-fetch failures are logged with exactly one log line
and the run continues after the standard poll-interval wait (unbounded
retries); a payment-form failure is logged with one line and the loop moves
on to the next candidate; but a balance-read failure during
VerifyingBalance is not caught — it terminates the run with no log line. -/
theorem transient_failure_handling (cfg : RunConfig) (feed : Feed) (token : Int)
    (ctr : Counters) (t : ℕ) (g : StarGift) (rest : List StarGift)
    (hstop : stopSet feed t = false) :
    (feed.catalog ctr.cat = .fetchErr →
      iteration cfg feed token ctr t =
        .next token ⟨ctr.cat + 1, ctr.bal, ctr.form, ctr.sub⟩ (t + cfg.poll_interval)
          [.poll token, .logCatalogError, .sleep cfg.poll_interval]) ∧
    (∀ v, feed.balance ctr.bal = .ok v →
      feed.form ctr.form = .err →
      insufficientBalance (stars_value (v.getD (.int (some 0)))) (giftPrice g) = false →
      buyLoop feed t ctr (g :: rest) =
        ((buyLoop feed t ⟨ctr.cat, ctr.bal + 1, ctr.form + 1, ctr.sub⟩ rest).1,
         .fetchBalance (stars_value (v.getD (.int (some 0)))) ::
           .formReq g.id (giftPrice g) :: .logFormError ::
           (buyLoop feed t ⟨ctr.cat, ctr.bal + 1, ctr.form + 1, ctr.sub⟩ rest).2.1,
         (buyLoop feed t ⟨ctr.cat, ctr.bal + 1, ctr.form + 1, ctr.sub⟩ rest).2.2)) ∧
    (feed.balance ctr.bal = .err →
      buyLoop feed t ctr (g :: rest) =
        (⟨ctr.cat, ctr.bal + 1, ctr.form, ctr.sub⟩, [.balanceRaised], some .crash)) := by
  refine ⟨fun hc => ?_, fun v hb hf hi => ?_, fun hb => ?_⟩
  · simp [iteration, hstop, hc]
  · simp [buyLoop, hstop, hb, hf, hi]
  · simp [buyLoop, hstop, hb]

/-- C4 amended witness: the three behaviours at concrete feeds — a catalog
error is logged and retried after the wait, a form error is logged and the
candidate abandoned, and a balance error crashes the run unlogged. -/
theorem transient_failure_handling_witness :
    iteration cfgStd feedCatErr 0 ⟨0, 1, 0, 0⟩ 0 =
      .next 0 ⟨0 + 1, 1, 0, 0⟩ (0 + cfgStd.poll_interval)
        [.poll 0, .logCatalogError, .sleep cfgStd.poll_interval] ∧
    buyLoop feedFormErr 0 ⟨1, 1, 0, 0⟩ [gLow] =
      ((buyLoop feedFormErr 0 ⟨1, 1 + 1, 0 + 1, 0⟩ []).1,
       .fetchBalance (stars_value ((some (.int (some 250))).getD (.int (some 0)))) ::
         .formReq gLow.id (giftPrice gLow) :: .logFormError ::
         (buyLoop feedFormErr 0 ⟨1, 1 + 1, 0 + 1, 0⟩ []).2.1,
       (buyLoop feedFormErr 0 ⟨1, 1 + 1, 0 + 1, 0⟩ []).2.2) ∧
    buyLoop feedBalCrash 0 ⟨1, 1, 0, 0⟩ [gLow] =
      (⟨1, 1 + 1, 0, 0⟩, [.balanceRaised], some .crash) :=
  ⟨(transient_failure_handling cfgStd feedCatErr 0 ⟨0, 1, 0, 0⟩ 0 gLow []
      (by decide)).1 (by decide),
   (transient_failure_handling cfgStd feedFormErr 0 ⟨1, 1, 0, 0⟩ 0 gLow []
      (by decide)).2.1 (some (.int (some 250))) (by decide) (by decide) (by decide),
   (transient_failure_handling cfgStd feedBalCrash 0 ⟨1, 1, 0, 0⟩ 0 gLow []
      (by decide)).2.2 (by decide)⟩

/-- C6 counterexample: when the initial status call rejects the session as
unauthorized, the run terminates without polling or purchasing, but it
first reopens the client — modelled by `Action.reopenLogin`, embedding
line 69 whose source comment reads "Reopen to force login flow in the same
session", an in-process interactive login — refuting "the run performs no
in-process interactive login". -/
theorem auth_required_reopens_login :
    runGiftBuyer cfgStd feedAuth 1 = (.authRestart, 0, authTrace) ∧
    Action.reopenLogin ∈ (runGiftBuyer cfgStd feedAuth 1).2.2 := by
  decide

/-- C6 amended: an authentication-required rejection of the established
session surfaces two guidance log lines and terminates the run with no
catalog poll and no purchase attempt; before terminating, the run reopens
the client in-process to force the login flow, then asks for a restart
(recovery completes out-of-band with a fresh run). -/
theorem auth_required_terminates (cfg : RunConfig) (feed : Feed) (fuel : ℕ)
    (h : feed.balance 0 = .authErr) :
    runGiftBuyer cfg feed fuel = (.authRestart, 0, authTrace) ∧
    (∀ a ∈ authTrace,
      (∀ hsh, a ≠ .poll hsh) ∧ (∀ i, a ≠ .submitForm i) ∧ ∀ i p, a ≠ .formReq i p) ∧
    Action.reopenLogin ∈ authTrace := by
  refine ⟨by simp [runGiftBuyer, h, authTrace], by simp [authTrace], by decide⟩

/-- C6 amended witness: the amended behaviour at the concrete `feedAuth`. -/
theorem auth_required_terminates_witness :
    runGiftBuyer cfgStd feedAuth 5 = (.authRestart, 0, authTrace) ∧
    (∀ a ∈ authTrace,
      (∀ hsh, a ≠ .poll hsh) ∧ (∀ i, a ≠ .submitForm i) ∧ ∀ i p, a ≠ .formReq i p) ∧
    Action.reopenLogin ∈ authTrace :=
  auth_required_terminates cfgStd feedAuth 5 (by decide)

/-! ### The run stops at the first successful purchase (C2) -/

theorem noSuccess_append (l₁ l₂ : List Action) :
    noSuccess (l₁ ++ l₂) = (noSuccess l₁ && noSuccess l₂) :=
  List.all_append

theorem successShape_append (consts tr : List Action) (r : Option BuyEnd)
    (hc : noSuccess consts = true) (h : SuccessShape tr r) :
    SuccessShape (consts ++ tr) r := by
  constructor
  · intro i p hr
    obtain ⟨tr₀, htr, hn⟩ := h.1 i p hr
    refine ⟨consts ++ tr₀, by rw [htr, List.append_assoc], ?_⟩
    rw [noSuccess_append, hc, hn]
    rfl
  · intro hr
    rw [noSuccess_append, hc, h.2 hr]
    rfl

theorem buyLoop_successShape (feed : Feed) (t : ℕ) :
    ∀ (cands : List StarGift) (ctr : Counters),
      SuccessShape (buyLoop feed t ctr cands).2.1 (buyLoop feed t ctr cands).2.2 := by
  intro cands
  induction cands with
  | nil =>
    intro ctr
    exact ⟨fun i p hr => by simp [buyLoop] at hr, fun _ => rfl⟩
  | cons g rest ih =>
    intro ctr
    by_cases hs : stopSet feed t
    · simp only [buyLoop, hs, if_true]
      exact ⟨fun i p hr => by simp at hr, fun _ => rfl⟩
    · cases hb : feed.balance ctr.bal with
      | authErr =>
        simp only [buyLoop, hs, if_false, hb]
        exact ⟨fun i p hr => by simp at hr, fun _ => rfl⟩
      | err =>
        simp only [buyLoop, hs, if_false, hb]
        exact ⟨fun i p hr => by simp at hr, fun _ => rfl⟩
      | ok v =>
        by_cases hi : insufficientBalance (stars_value (v.getD (.int (some 0)))) (giftPrice g)
        · simp only [buyLoop, hs, if_false, hb, hi, if_true]
          exact successShape_append [.fetchBalance _, .logSkip _ _] _ _ rfl (ih _)
        · cases hf : feed.form ctr.form with
          | err =>
            simp only [buyLoop, hs, if_false, hb, hi, hf]
            exact successShape_append [.fetchBalance _, .formReq _ _, .logFormError] _ _ rfl
              (ih _)
          | invalid =>
            simp only [buyLoop, hs, if_false, hb, hi, hf]
            exact successShape_append [.fetchBalance _, .formReq _ _, .logUnexpectedForm] _ _
              rfl (ih _)
          | valid =>
            cases hsub : feed.submit ctr.sub with
            | ok =>
              have heq : buyLoop feed t ctr (g :: rest) =
                  (⟨ctr.cat, ctr.bal + 1, ctr.form + 1, ctr.sub + 1⟩,
                   [.fetchBalance (stars_value (v.getD (.int (some 0)))),
                    .formReq g.id (giftPrice g), .submitForm g.id,
                    .logSuccess g.id (giftPrice g)],
                   some (.success g.id (giftPrice g))) := by
                simp [buyLoop, hs, hb, hi, hf, hsub]
              rw [heq]
              constructor
              · intro i p hr
                simp only [Option.some.injEq, BuyEnd.success.injEq] at hr
                obtain ⟨hi2, hp2⟩ := hr
                subst hi2
                subst hp2
                exact ⟨[.fetchBalance _, .formReq _ _, .submitForm _], rfl, rfl⟩
              · intro hr
                exact absurd rfl (hr g.id (giftPrice g))
            | err =>
              simp only [buyLoop, hs, if_false, hb, hi, hf, hsub]
              exact successShape_append
                [.fetchBalance _, .formReq _ _, .submitForm _, .logPayError] _ _ rfl (ih _)

theorem iteration_successShape (cfg : RunConfig) (feed : Feed) (token : Int)
    (ctr : Counters) (t : ℕ) :
    (∀ out tr, iteration cfg feed token ctr t = .finished out tr →
      SuccessShape tr (some out)) ∧
    (∀ token' ctr' t' tr, iteration cfg feed token ctr t = .next token' ctr' t' tr →
      noSuccess tr = true) := by
  by_cases hs : stopSet feed t
  · simp [iteration, hs]
  · have hs' : stopSet feed t = false := by simpa using hs
    cases hc : feed.catalog ctr.cat with
    | fetchErr =>
      have heq : iteration cfg feed token ctr t =
          .next token ⟨ctr.cat + 1, ctr.bal, ctr.form, ctr.sub⟩ (t + cfg.poll_interval)
            [.poll token, .logCatalogError, .sleep cfg.poll_interval] := by
        simp [iteration, hs', hc]
      rw [heq]
      refine ⟨fun out tr h => IterStep.noConfusion h, fun token' ctr' t' tr h => ?_⟩
      cases h
      rfl
    | notModified =>
      have heq : iteration cfg feed token ctr t =
          .next token ⟨ctr.cat + 1, ctr.bal, ctr.form, ctr.sub⟩ (t + cfg.poll_interval)
            [.poll token, .sleep cfg.poll_interval] := by
        simp [iteration, hs', hc]
      rw [heq]
      refine ⟨fun out tr h => IterStep.noConfusion h, fun token' ctr' t' tr h => ?_⟩
      cases h
      rfl
    | ok hsh gifts =>
      by_cases he : gifts.isEmpty
      · have heq : iteration cfg feed token ctr t =
            .next (hsh.getD 0) ⟨ctr.cat + 1, ctr.bal, ctr.form, ctr.sub⟩
              (t + cfg.poll_interval) [.poll token, .sleep cfg.poll_interval] := by
          simp [iteration, hs', hc, he]
        rw [heq]
        refine ⟨fun out tr h => IterStep.noConfusion h, fun token' ctr' t' tr h => ?_⟩
        cases h
        rfl
      · have hshape := buyLoop_successShape feed t
          (evaluateOffers cfg.max_price_stars gifts) ⟨ctr.cat + 1, ctr.bal, ctr.form, ctr.sub⟩
        cases hr : (buyLoop feed t ⟨ctr.cat + 1, ctr.bal, ctr.form, ctr.sub⟩
            (evaluateOffers cfg.max_price_stars gifts)).2.2 with
        | some out0 =>
          have heq : iteration cfg feed token ctr t =
              .finished out0 (.poll token ::
                (buyLoop feed t ⟨ctr.cat + 1, ctr.bal, ctr.form, ctr.sub⟩
                  (evaluateOffers cfg.max_price_stars gifts)).2.1) := by
            simp [iteration, hs', hc, he, hr]
          rw [heq]
          refine ⟨fun out tr h => ?_, fun token' ctr' t' tr h => IterStep.noConfusion h⟩
          cases h
          rw [hr] at hshape
          exact successShape_append [.poll token] _ _ rfl hshape
        | none =>
          have heq : iteration cfg feed token ctr t =
              .next (hsh.getD 0)
                (buyLoop feed t ⟨ctr.cat + 1, ctr.bal, ctr.form, ctr.sub⟩
                  (evaluateOffers cfg.max_price_stars gifts)).1
                (t + cfg.poll_interval)
                (.poll token ::
                  ((buyLoop feed t ⟨ctr.cat + 1, ctr.bal, ctr.form, ctr.sub⟩
                    (evaluateOffers cfg.max_price_stars gifts)).2.1 ++
                   [.sleep cfg.poll_interval])) := by
            simp [iteration, hs', hc, he, hr]
          rw [heq]
          refine ⟨fun out tr h => IterStep.noConfusion h, fun token' ctr' t' tr h => ?_⟩
          cases h
          have hn : noSuccess (buyLoop feed t ⟨ctr.cat + 1, ctr.bal, ctr.form, ctr.sub⟩
              (evaluateOffers cfg.max_price_stars gifts)).2.1 = true := by
            refine hshape.2 ?_
            rw [hr]
            intro i p h'
            exact Option.noConfusion h'
          have h2 : noSuccess ((buyLoop feed t ⟨ctr.cat + 1, ctr.bal, ctr.form, ctr.sub⟩
              (evaluateOffers cfg.max_price_stars gifts)).2.1 ++
              [.sleep cfg.poll_interval]) = true := by
            rw [noSuccess_append, hn]; rfl
          simpa [noSuccess] using h2

theorem runLoop_successShape (cfg : RunConfig) (feed : Feed) :
    ∀ (fuel : ℕ) (token : Int) (ctr : Counters) (t : ℕ),
      (∀ i p, (runLoop cfg feed fuel token ctr t).1 = .success i p →
        ∃ tr₀, (runLoop cfg feed fuel token ctr t).2.2 = tr₀ ++ [.logSuccess i p] ∧
          noSuccess tr₀ = true) ∧
      ((∀ i p, (runLoop cfg feed fuel token ctr t).1 ≠ .success i p) →
        noSuccess (runLoop cfg feed fuel token ctr t).2.2 = true) := by
  intro fuel
  induction fuel with
  | zero =>
    intro token ctr t
    exact ⟨fun i p h => by simp [runLoop] at h, fun _ => rfl⟩
  | succ fuel ih =>
    intro token ctr t
    cases hit : iteration cfg feed token ctr t with
    | stopped =>
      simp only [runLoop, hit]
      exact ⟨fun i p h => by simp at h, fun _ => rfl⟩
    | finished out tr =>
      have hshape := ((iteration_successShape cfg feed token ctr t).1 out tr hit)
      cases out with
      | success i₀ p₀ =>
        simp only [runLoop, hit, outcomeOfEnd]
        constructor
        · intro i p h
          simp only [Outcome.success.injEq] at h
          obtain ⟨hi, hp⟩ := h
          subst hi
          subst hp
          exact hshape.1 _ _ rfl
        · intro h
          exact absurd rfl (h i₀ p₀)
      | crash =>
        simp only [runLoop, hit, outcomeOfEnd]
        refine ⟨fun i p h => by simp at h, fun _ => ?_⟩
        exact hshape.2 fun i p h => by simp at h
    | next token' ctr' t' tr =>
      have hn : noSuccess tr = true :=
        (iteration_successShape cfg feed token ctr t).2 token' ctr' t' tr hit
      simp only [runLoop, hit]
      constructor
      · intro i p h
        obtain ⟨tr₀, htr, hn₀⟩ := (ih token' ctr' t').1 i p h
        refine ⟨tr ++ tr₀, by rw [htr, List.append_assoc], ?_⟩
        rw [noSuccess_append, hn, hn₀]; rfl
      · intro h
        rw [noSuccess_append, hn, (ih token' ctr' t').2 h]; rfl

theorem runGiftBuyer_successShape (cfg : RunConfig) (feed : Feed) (fuel : ℕ) :
    (∀ i p, (runGiftBuyer cfg feed fuel).1 = .success i p →
      ∃ tr₀, (runGiftBuyer cfg feed fuel).2.2 = tr₀ ++ [.logSuccess i p] ∧
        noSuccess tr₀ = true) ∧
    ((∀ i p, (runGiftBuyer cfg feed fuel).1 ≠ .success i p) →
      noSuccess (runGiftBuyer cfg feed fuel).2.2 = true) := by
  cases hb : feed.balance 0 with
  | authErr =>
    simp only [runGiftBuyer, hb]
    exact ⟨fun i p h => by simp at h, fun _ => rfl⟩
  | err =>
    simp only [runGiftBuyer, hb]
    exact ⟨fun i p h => by simp at h, fun _ => rfl⟩
  | ok v =>
    have hloop := runLoop_successShape cfg feed fuel 0 ⟨0, 1, 0, 0⟩ 0
    simp only [runGiftBuyer, hb]
    constructor
    · intro i p h
      obtain ⟨tr₀, htr, hn⟩ := hloop.1 i p h
      refine ⟨.logBalance (stars_value (v.getD (.int (some 0)))) :: .logRecipient :: tr₀,
        by rw [htr]; rfl, ?_⟩
      simpa [noSuccess] using hn
    · intro h
      have := hloop.2 h
      simpa [noSuccess] using this

theorem noSuccess_last_decomp (i' : Int) (p' : ℚ) :
    ∀ (tr₀ pre post : List Action) (i : Int) (p : ℚ), noSuccess tr₀ = true →
      tr₀ ++ [Action.logSuccess i' p'] = pre ++ .logSuccess i p :: post →
      post = [] ∧ i = i' ∧ p = p' := by
  intro tr₀
  induction tr₀ with
  | nil =>
    intro pre post i p _ heq
    cases pre with
    | nil =>
      simp only [List.nil_append] at heq
      obtain ⟨h1, h2⟩ := List.cons.inj heq
      obtain ⟨hi, hp⟩ := Action.logSuccess.inj h1
      exact ⟨h2.symm, hi.symm, hp.symm⟩
    | cons b pre' =>
      simp only [List.nil_append, List.cons_append] at heq
      obtain ⟨_, h2⟩ := List.cons.inj heq
      exact absurd h2.symm (List.append_ne_nil_of_right_ne_nil pre' (List.cons_ne_nil _ _))
  | cons a tr ih =>
    intro pre post i p hns heq
    cases pre with
    | nil =>
      simp only [List.cons_append, List.nil_append] at heq
      obtain ⟨h1, _⟩ := List.cons.inj heq
      rw [h1] at hns
      simp [noSuccess] at hns
    | cons b pre' =>
      simp only [List.cons_append] at heq
      obtain ⟨_, h2⟩ := List.cons.inj heq
      have hns' : noSuccess tr = true := by
        simp only [noSuccess, List.all_cons, Bool.and_eq_true] at hns
        exact hns.2
      exact ih pre' post i p hns' h2

/-- C2: after the first successful payment submission the run terminates in
the success outcome: the success log is the final action of the whole run's
trace (nothing — no poll, no further purchase attempt — follows it), even
when further eligible, affordable candidates remain in the same polled
batch. -/
theorem run_stops_after_first_success (cfg : RunConfig) (feed : Feed) (fuel : ℕ)
    (pre post : List Action) (i : Int) (p : ℚ)
    (h : (runGiftBuyer cfg feed fuel).2.2 = pre ++ .logSuccess i p :: post) :
    post = [] ∧ (runGiftBuyer cfg feed fuel).1 = .success i p := by
  cases ho : (runGiftBuyer cfg feed fuel).1 with
  | success i' p' =>
    obtain ⟨tr₀, htr, hn⟩ := (runGiftBuyer_successShape cfg feed fuel).1 i' p' ho
    rw [h] at htr
    obtain ⟨hpost, hi, hp⟩ := noSuccess_last_decomp i' p' tr₀ pre post i p hn htr.symm
    exact ⟨hpost, by rw [hi, hp]⟩
  | crash =>
    have hno := (runGiftBuyer_successShape cfg feed fuel).2
      (fun i p hcon => by rw [ho] at hcon; exact Outcome.noConfusion hcon)
    rw [h, noSuccess_append] at hno
    simp [noSuccess] at hno
  | cancelled =>
    have hno := (runGiftBuyer_successShape cfg feed fuel).2
      (fun i p hcon => by rw [ho] at hcon; exact Outcome.noConfusion hcon)
    rw [h, noSuccess_append] at hno
    simp [noSuccess] at hno
  | authRestart =>
    have hno := (runGiftBuyer_successShape cfg feed fuel).2
      (fun i p hcon => by rw [ho] at hcon; exact Outcome.noConfusion hcon)
    rw [h, noSuccess_append] at hno
    simp [noSuccess] at hno
  | fuelOut =>
    have hno := (runGiftBuyer_successShape cfg feed fuel).2
      (fun i p hcon => by rw [ho] at hcon; exact Outcome.noConfusion hcon)
    rw [h, noSuccess_append] at hno
    simp [noSuccess] at hno

/-- C2 witness: `feedSucc` offers two eligible affordable gifts (prices 100
and 300, balance 250); the run buys the 100-star gift, its success log ends
the trace, and the outcome is success. -/
theorem run_stops_after_first_success_witness :
    ([] : List Action) = [] ∧ (runGiftBuyer cfgStd feedSucc 3).1 = .success 11 100 :=
  run_stops_after_first_success cfgStd feedSucc 3
    [.logBalance 250, .logRecipient, .poll 0, .fetchBalance 250, .formReq 11 100,
     .submitForm 11] [] 11 100 (by decide)

/-! ### Cancellation timing (C3) -/

theorem iteration_stopped_stopSet (cfg : RunConfig) (feed : Feed) (token : Int)
    (ctr : Counters) (t : ℕ) (h : iteration cfg feed token ctr t = .stopped) :
    stopSet feed t = true := by
  by_cases hs : stopSet feed t
  · exact hs
  · have hs' : stopSet feed t = false := by simpa using hs
    exfalso
    cases hc : feed.catalog ctr.cat with
    | fetchErr => simp [iteration, hs', hc] at h
    | notModified => simp [iteration, hs', hc] at h
    | ok hsh gifts =>
      by_cases he : gifts.isEmpty
      · simp [iteration, hs', hc, he] at h
      · cases hr : (buyLoop feed t ⟨ctr.cat + 1, ctr.bal, ctr.form, ctr.sub⟩
            (evaluateOffers cfg.max_price_stars gifts)).2.2 with
        | some out0 => simp [iteration, hs', hc, he, hr] at h
        | none => simp [iteration, hs', hc, he, hr] at h

theorem iteration_next_time (cfg : RunConfig) (feed : Feed) (token : Int)
    (ctr : Counters) (t : ℕ) (token' : Int) (ctr' : Counters) (t' : ℕ)
    (tr : List Action) (h : iteration cfg feed token ctr t = .next token' ctr' t' tr) :
    stopSet feed t = false ∧ t' = t + cfg.poll_interval := by
  by_cases hs : stopSet feed t
  · exfalso
    simp [iteration, hs] at h
  · have hs' : stopSet feed t = false := by simpa using hs
    refine ⟨hs', ?_⟩
    cases hc : feed.catalog ctr.cat with
    | fetchErr =>
      simp only [iteration, hs', Bool.false_eq_true, if_false, hc,
        IterStep.next.injEq] at h
      omega
    | notModified =>
      simp only [iteration, hs', Bool.false_eq_true, if_false, hc,
        IterStep.next.injEq] at h
      omega
    | ok hsh gifts =>
      by_cases he : gifts.isEmpty
      · simp only [iteration, hs', Bool.false_eq_true, if_false, hc, he, if_true,
          IterStep.next.injEq] at h
        omega
      · cases hr : (buyLoop feed t ⟨ctr.cat + 1, ctr.bal, ctr.form, ctr.sub⟩
            (evaluateOffers cfg.max_price_stars gifts)).2.2 with
        | some out0 => simp [iteration, hs', hc, he, hr] at h
        | none =>
          have heq : iteration cfg feed token ctr t =
              .next (hsh.getD 0)
                (buyLoop feed t ⟨ctr.cat + 1, ctr.bal, ctr.form, ctr.sub⟩
                  (evaluateOffers cfg.max_price_stars gifts)).1
                (t + cfg.poll_interval)
                (.poll token ::
                  ((buyLoop feed t ⟨ctr.cat + 1, ctr.bal, ctr.form, ctr.sub⟩
                    (evaluateOffers cfg.max_price_stars gifts)).2.1 ++
                   [.sleep cfg.poll_interval])) := by
            simp [iteration, hs', hc, he, hr]
          rw [heq] at h
          simp only [IterStep.next.injEq] at h
          omega

theorem runLoop_cancelled_time (cfg : RunConfig) (feed : Feed) :
    ∀ (fuel : ℕ) (token : Int) (ctr : Counters) (t T : ℕ) (tr : List Action),
      runLoop cfg feed fuel token ctr t = (.cancelled, T, tr) →
      stopSet feed T = true ∧
        (T = t ∨ (cfg.poll_interval ≤ T ∧ stopSet feed (T - cfg.poll_interval) = false)) := by
  intro fuel
  induction fuel with
  | zero =>
    intro token ctr t T tr h
    exfalso
    simp [runLoop] at h
  | succ fuel ih =>
    intro token ctr t T tr h
    cases hit : iteration cfg feed token ctr t with
    | stopped =>
      simp only [runLoop, hit, Prod.mk.injEq] at h
      obtain ⟨-, ht, -⟩ := h
      subst ht
      exact ⟨iteration_stopped_stopSet cfg feed token ctr t hit, Or.inl rfl⟩
    | finished out tr0 =>
      exfalso
      simp only [runLoop, hit] at h
      cases out <;> simp [outcomeOfEnd] at h
    | next token' ctr' t' tr0 =>
      rcases hE : runLoop cfg feed fuel token' ctr' t' with ⟨o, T2, tr2⟩
      simp only [runLoop, hit, hE, Prod.mk.injEq] at h
      obtain ⟨h1, h2, -⟩ := h
      rw [h1, h2] at hE
      obtain ⟨hstopT, hdisj⟩ := ih token' ctr' t' T tr2 hE
      obtain ⟨hsfalse, ht'⟩ := iteration_next_time cfg feed token ctr t token' ctr' t' tr0 hit
      refine ⟨hstopT, Or.inr ?_⟩
      rcases hdisj with hT | ⟨hle, hfalse⟩
      · subst ht'
        constructor
        · omega
        · have : T - cfg.poll_interval = t := by omega
          rw [this]
          exact hsfalse
      · exact ⟨hle, hfalse⟩

/-- C3 counterexample: the stop event is set at t = 1, during the sleep
spanning [0, 10).  A wait that "wakes immediately on cancellation" would
end the run at time 1; instead the plain fixed-duration `asyncio.sleep`
runs to completion and the run reaches the cancelled outcome only at
t = 10, nine seconds after the request — the sleep is not interruptible. -/
theorem cancellation_not_immediate :
    feedCancel.stopAt = some 1 ∧
    runGiftBuyer cfgTen feedCancel 3 =
      (.cancelled, 10, [.logBalance 0, .logRecipient, .poll 0, .sleep 10]) ∧
    (10 : ℕ) ≠ 1 :=
  ⟨rfl, by decide, by decide⟩

/-- C3 amended: cancellation requested while the run is underway is
observed only at a loop-boundary check after the current full
fixed-duration sleep completes (the sleep never wakes early), and every
cancelled run terminates within strictly less than one poll interval of
the request: if the run ends cancelled at time T with the stop event set
at time s, then s ≤ T < s + poll_interval. -/
theorem cancellation_latency (cfg : RunConfig) (feed : Feed) (fuel : ℕ) (s T : ℕ)
    (tr : List Action) (hstop : feed.stopAt = some s) (hI : 0 < cfg.poll_interval)
    (h : runGiftBuyer cfg feed fuel = (.cancelled, T, tr)) :
    s ≤ T ∧ T < s + cfg.poll_interval := by
  cases hb : feed.balance 0 with
  | authErr =>
    exfalso
    simp [runGiftBuyer, hb] at h
  | err =>
    exfalso
    simp [runGiftBuyer, hb] at h
  | ok v =>
    rcases hE : runLoop cfg feed fuel 0 ⟨0, 1, 0, 0⟩ 0 with ⟨o, T2, tr2⟩
    simp only [runGiftBuyer, hb, hE, Prod.mk.injEq] at h
    obtain ⟨h1, h2, -⟩ := h
    rw [h1, h2] at hE
    obtain ⟨hsT, hdisj⟩ := runLoop_cancelled_time cfg feed fuel 0 ⟨0, 1, 0, 0⟩ 0 T tr2 hE
    have hsle : s ≤ T := by simpa [stopSet, hstop] using hsT
    rcases hdisj with hT0 | ⟨hle, hfalse⟩
    · omega
    · have hlt : ¬ (s ≤ T - cfg.poll_interval) := by
        simpa [stopSet, hstop] using hfalse
      omega

/-- C3 amended witness: for the concrete cancelled run (`feedCancel`, stop
at t = 1, interval 10) the latency bound gives 1 ≤ 10 < 11. -/
theorem cancellation_latency_witness : 1 ≤ 10 ∧ 10 < 1 + cfgTen.poll_interval :=
  cancellation_latency cfgTen feedCancel 3 1 10
    [.logBalance 0, .logRecipient, .poll 0, .sleep 10] (by decide) (by decide) (by decide)

/-! ### Fresh balance before every purchase attempt (C8) -/

theorem BalGatedP.append :
    ∀ {l₁ l₂ : List Action}, BalGatedP l₁ → BalGatedP l₂ → BalGatedP (l₁ ++ l₂) := by
  intro l₁ l₂ h1 h2
  induction h1 with
  | nil => simpa using h2
  | pair b i p rest hbp _ ih => exact .pair b i p _ hbp ih
  | skip a rest hnf _ ih => exact .skip a _ hnf ih

theorem buyLoop_balGated (feed : Feed) (t : ℕ) :
    ∀ (cands : List StarGift) (ctr : Counters),
      BalGatedP (buyLoop feed t ctr cands).2.1 := by
  intro cands
  induction cands with
  | nil =>
    intro ctr
    exact .nil
  | cons g rest ih =>
    intro ctr
    by_cases hs : stopSet feed t
    · have heq : (buyLoop feed t ctr (g :: rest)).2.1 = [] := by simp [buyLoop, hs]
      rw [heq]
      exact .nil
    · cases hb : feed.balance ctr.bal with
      | authErr =>
        have heq : (buyLoop feed t ctr (g :: rest)).2.1 = [.balanceRaised] := by
          simp [buyLoop, hs, hb]
        rw [heq]
        exact .skip _ _ (fun i p h => Action.noConfusion h) .nil
      | err =>
        have heq : (buyLoop feed t ctr (g :: rest)).2.1 = [.balanceRaised] := by
          simp [buyLoop, hs, hb]
        rw [heq]
        exact .skip _ _ (fun i p h => Action.noConfusion h) .nil
      | ok v =>
        by_cases hi : insufficientBalance (stars_value (v.getD (.int (some 0)))) (giftPrice g)
        · have heq : (buyLoop feed t ctr (g :: rest)).2.1 =
              .fetchBalance (stars_value (v.getD (.int (some 0)))) ::
                .logSkip (stars_value (v.getD (.int (some 0)))) (giftPrice g) ::
                (buyLoop feed t ⟨ctr.cat, ctr.bal + 1, ctr.form, ctr.sub⟩ rest).2.1 := by
            simp [buyLoop, hs, hb, hi]
          rw [heq]
          exact .skip _ _ (fun i p h => Action.noConfusion h)
            (.skip _ _ (fun i p h => Action.noConfusion h) (ih _))
        · have hple : giftPrice g ≤ stars_value (v.getD (.int (some 0))) :=
            le_of_not_lt (by simpa [insufficientBalance] using hi)
          cases hf : feed.form ctr.form with
          | err =>
            have heq : (buyLoop feed t ctr (g :: rest)).2.1 =
                .fetchBalance (stars_value (v.getD (.int (some 0)))) ::
                  .formReq g.id (giftPrice g) :: .logFormError ::
                  (buyLoop feed t ⟨ctr.cat, ctr.bal + 1, ctr.form + 1, ctr.sub⟩ rest).2.1 := by
              simp [buyLoop, hs, hb, hi, hf]
            rw [heq]
            exact .pair _ _ _ _ hple (.skip _ _ (fun i p h => Action.noConfusion h) (ih _))
          | invalid =>
            have heq : (buyLoop feed t ctr (g :: rest)).2.1 =
                .fetchBalance (stars_value (v.getD (.int (some 0)))) ::
                  .formReq g.id (giftPrice g) :: .logUnexpectedForm ::
                  (buyLoop feed t ⟨ctr.cat, ctr.bal + 1, ctr.form + 1, ctr.sub⟩ rest).2.1 := by
              simp [buyLoop, hs, hb, hi, hf]
            rw [heq]
            exact .pair _ _ _ _ hple (.skip _ _ (fun i p h => Action.noConfusion h) (ih _))
          | valid =>
            cases hsub : feed.submit ctr.sub with
            | ok =>
              have heq : (buyLoop feed t ctr (g :: rest)).2.1 =
                  [.fetchBalance (stars_value (v.getD (.int (some 0)))),
                   .formReq g.id (giftPrice g), .submitForm g.id,
                   .logSuccess g.id (giftPrice g)] := by
                simp [buyLoop, hs, hb, hi, hf, hsub]
              rw [heq]
              exact .pair _ _ _ _ hple
                (.skip _ _ (fun i p h => Action.noConfusion h)
                  (.skip _ _ (fun i p h => Action.noConfusion h) .nil))
            | err =>
              have heq : (buyLoop feed t ctr (g :: rest)).2.1 =
                  .fetchBalance (stars_value (v.getD (.int (some 0)))) ::
                    .formReq g.id (giftPrice g) :: .submitForm g.id :: .logPayError ::
                    (buyLoop feed t ⟨ctr.cat, ctr.bal + 1, ctr.form + 1, ctr.sub + 1⟩
                      rest).2.1 := by
                simp [buyLoop, hs, hb, hi, hf, hsub]
              rw [heq]
              exact .pair _ _ _ _ hple
                (.skip _ _ (fun i p h => Action.noConfusion h)
                  (.skip _ _ (fun i p h => Action.noConfusion h) (ih _)))

theorem iteration_balGated (cfg : RunConfig) (feed : Feed) (token : Int)
    (ctr : Counters) (t : ℕ) :
    (∀ out tr, iteration cfg feed token ctr t = .finished out tr → BalGatedP tr) ∧
    (∀ token' ctr' t' tr, iteration cfg feed token ctr t = .next token' ctr' t' tr →
      BalGatedP tr) := by
  by_cases hs : stopSet feed t
  · simp [iteration, hs]
  · have hs' : stopSet feed t = false := by simpa using hs
    cases hc : feed.catalog ctr.cat with
    | fetchErr =>
      have heq : iteration cfg feed token ctr t =
          .next token ⟨ctr.cat + 1, ctr.bal, ctr.form, ctr.sub⟩ (t + cfg.poll_interval)
            [.poll token, .logCatalogError, .sleep cfg.poll_interval] := by
        simp [iteration, hs', hc]
      rw [heq]
      refine ⟨fun out tr h => IterStep.noConfusion h, fun token' ctr' t' tr h => ?_⟩
      cases h
      exact .skip _ _ (fun i p h => Action.noConfusion h)
        (.skip _ _ (fun i p h => Action.noConfusion h)
          (.skip _ _ (fun i p h => Action.noConfusion h) .nil))
    | notModified =>
      have heq : iteration cfg feed token ctr t =
          .next token ⟨ctr.cat + 1, ctr.bal, ctr.form, ctr.sub⟩ (t + cfg.poll_interval)
            [.poll token, .sleep cfg.poll_interval] := by
        simp [iteration, hs', hc]
      rw [heq]
      refine ⟨fun out tr h => IterStep.noConfusion h, fun token' ctr' t' tr h => ?_⟩
      cases h
      exact .skip _ _ (fun i p h => Action.noConfusion h)
        (.skip _ _ (fun i p h => Action.noConfusion h) .nil)
    | ok hsh gifts =>
      by_cases he : gifts.isEmpty
      · have heq : iteration cfg feed token ctr t =
            .next (hsh.getD 0) ⟨ctr.cat + 1, ctr.bal, ctr.form, ctr.sub⟩
              (t + cfg.poll_interval) [.poll token, .sleep cfg.poll_interval] := by
          simp [iteration, hs', hc, he]
        rw [heq]
        refine ⟨fun out tr h => IterStep.noConfusion h, fun token' ctr' t' tr h => ?_⟩
        cases h
        exact .skip _ _ (fun i p h => Action.noConfusion h)
          (.skip _ _ (fun i p h => Action.noConfusion h) .nil)
      · have hbuy := buyLoop_balGated feed t (evaluateOffers cfg.max_price_stars gifts)
          ⟨ctr.cat + 1, ctr.bal, ctr.form, ctr.sub⟩
        cases hr : (buyLoop feed t ⟨ctr.cat + 1, ctr.bal, ctr.form, ctr.sub⟩
            (evaluateOffers cfg.max_price_stars gifts)).2.2 with
        | some out0 =>
          have heq : iteration cfg feed token ctr t =
              .finished out0 (.poll token ::
                (buyLoop feed t ⟨ctr.cat + 1, ctr.bal, ctr.form, ctr.sub⟩
                  (evaluateOffers cfg.max_price_stars gifts)).2.1) := by
            simp [iteration, hs', hc, he, hr]
          rw [heq]
          refine ⟨fun out tr h => ?_, fun token' ctr' t' tr h => IterStep.noConfusion h⟩
          cases h
          exact .skip _ _ (fun i p h => Action.noConfusion h) hbuy
        | none =>
          have heq : iteration cfg feed token ctr t =
              .next (hsh.getD 0)
                (buyLoop feed t ⟨ctr.cat + 1, ctr.bal, ctr.form, ctr.sub⟩
                  (evaluateOffers cfg.max_price_stars gifts)).1
                (t + cfg.poll_interval)
                (.poll token ::
                  ((buyLoop feed t ⟨ctr.cat + 1, ctr.bal, ctr.form, ctr.sub⟩
                    (evaluateOffers cfg.max_price_stars gifts)).2.1 ++
                   [.sleep cfg.poll_interval])) := by
            simp [iteration, hs', hc, he, hr]
          rw [heq]
          refine ⟨fun out tr h => IterStep.noConfusion h, fun token' ctr' t' tr h => ?_⟩
          cases h
          exact .skip _ _ (fun i p h => Action.noConfusion h)
            (hbuy.append (.skip _ _ (fun i p h => Action.noConfusion h) .nil))

theorem runLoop_balGated (cfg : RunConfig) (feed : Feed) :
    ∀ (fuel : ℕ) (token : Int) (ctr : Counters) (t : ℕ),
      BalGatedP (runLoop cfg feed fuel token ctr t).2.2 := by
  intro fuel
  induction fuel with
  | zero =>
    intro token ctr t
    exact .nil
  | succ fuel ih =>
    intro token ctr t
    cases hit : iteration cfg feed token ctr t with
    | stopped =>
      simp only [runLoop, hit]
      exact .nil
    | finished out tr =>
      simp only [runLoop, hit]
      exact (iteration_balGated cfg feed token ctr t).1 out tr hit
    | next token' ctr' t' tr =>
      simp only [runLoop, hit]
      exact ((iteration_balGated cfg feed token ctr t).2 token' ctr' t' tr hit).append
        (ih token' ctr' t')

theorem runGiftBuyer_balGated (cfg : RunConfig) (feed : Feed) (fuel : ℕ) :
    BalGatedP (runGiftBuyer cfg feed fuel).2.2 := by
  cases hb : feed.balance 0 with
  | authErr =>
    simp only [runGiftBuyer, hb]
    exact .skip _ _ (fun i p h => Action.noConfusion h)
      (.skip _ _ (fun i p h => Action.noConfusion h)
        (.skip _ _ (fun i p h => Action.noConfusion h) .nil))
  | err =>
    simp only [runGiftBuyer, hb]
    exact .skip _ _ (fun i p h => Action.noConfusion h) .nil
  | ok v =>
    simp only [runGiftBuyer, hb]
    exact .skip _ _ (fun i p h => Action.noConfusion h)
      (.skip _ _ (fun i p h => Action.noConfusion h) (runLoop_balGated cfg feed fuel 0 _ 0))

theorem BalGatedP_decomp :
    ∀ {l : List Action}, BalGatedP l →
      ∀ (pre post : List Action) (i : Int) (p : ℚ), l = pre ++ .formReq i p :: post →
        ∃ pre' b, pre = pre' ++ [Action.fetchBalance b] ∧ p ≤ b := by
  intro l hl
  induction hl with
  | nil =>
    intro pre post i p heq
    cases pre <;> simp at heq
  | pair b i₀ p₀ rest hbp hrest ih =>
    intro pre post i p heq
    cases pre with
    | nil =>
      simp only [List.nil_append] at heq
      obtain ⟨h1, -⟩ := List.cons.inj heq
      exact Action.noConfusion h1
    | cons x pre' =>
      simp only [List.cons_append] at heq
      obtain ⟨hx, h2⟩ := List.cons.inj heq
      cases pre' with
      | nil =>
        simp only [List.nil_append] at h2
        obtain ⟨hf, -⟩ := List.cons.inj h2
        obtain ⟨-, hp⟩ := Action.formReq.inj hf
        refine ⟨[], b, ?_, ?_⟩
        · rw [← hx]
          rfl
        · rw [← hp]
          exact hbp
      | cons y pre'' =>
        simp only [List.cons_append] at h2
        obtain ⟨hy, h3⟩ := List.cons.inj h2
        obtain ⟨pre₀, b', hpre, hb'⟩ := ih pre'' post i p h3
        refine ⟨x :: y :: pre₀, b', ?_, hb'⟩
        rw [hpre]
        rfl
  | skip a rest hnf hrest ih =>
    intro pre post i p heq
    cases pre with
    | nil =>
      simp only [List.nil_append] at heq
      obtain ⟨h1, -⟩ := List.cons.inj heq
      exact absurd h1 (hnf i p)
    | cons x pre' =>
      simp only [List.cons_append] at heq
      obtain ⟨-, h2⟩ := List.cons.inj heq
      obtain ⟨pre₀, b', hpre, hb'⟩ := ih pre' post i p h2
      refine ⟨x :: pre₀, b', ?_, hb'⟩
      rw [hpre]
      rfl

/-- C8: whenever the run's trace contains a purchase attempt (a payment
form request for a candidate priced p), the immediately preceding action is
a balance fetch, and the fetched balance b gates that very attempt
(p ≤ b) — the balance is re-read from the platform immediately before each
purchase attempt, and no earlier balance value is ever the one that gates
it. -/
theorem balance_fresh_before_purchase (cfg : RunConfig) (feed : Feed) (fuel : ℕ)
    (pre post : List Action) (i : Int) (p : ℚ)
    (h : (runGiftBuyer cfg feed fuel).2.2 = pre ++ .formReq i p :: post) :
    ∃ pre' b, pre = pre' ++ [Action.fetchBalance b] ∧ p ≤ b :=
  BalGatedP_decomp (runGiftBuyer_balGated cfg feed fuel) pre post i p h

/-- C8 witness: in the successful `feedSucc` run, the form request for the
100-star gift is immediately preceded by the fresh balance read of 250. -/
theorem balance_fresh_before_purchase_witness :
    ∃ pre' b,
      [Action.logBalance 250, .logRecipient, .poll 0, .fetchBalance 250] =
        pre' ++ [Action.fetchBalance b] ∧ (100 : ℚ) ≤ b :=
  balance_fresh_before_purchase cfgStd feedSucc 3
    [.logBalance 250, .logRecipient, .poll 0, .fetchBalance 250]
    [.submitForm 11, .logSuccess 11 100] 11 100 (by decide)

/-- C10 witness: in the catalog `[gHigh, gLow, gFree]` under ceiling 500,
the priceless gift `gFree` has price 0, is eligible, and heads the
evaluator's output. -/
theorem priceless_gift_sorts_first_witness :
    giftPrice gFree = 0 ∧ eligibleB 500 gFree = true ∧
    gFree ∈ evaluateOffers 500 [gHigh, gLow, gFree] ∧
    (∀ o ∈ evaluateOffers 500 [gHigh, gLow, gFree], giftPrice gFree ≤ giftPrice o) ∧
    ∃ h t, evaluateOffers 500 [gHigh, gLow, gFree] = h :: t ∧ giftPrice h = 0 :=
  priceless_gift_sorts_first 500 [gHigh, gLow, gFree] gFree (by decide) (by decide)
    (by decide) (by decide) (by decide) (by decide) (by decide)

end StarsBot
